import Mathlib

/-!
Shallow embedding of `src/metabase/http_client.clj` (the test/REPL HTTP client
of the repository).  Clojure values that can flow through the client are
modelled by the inductive type `Clj`; the HTTP transport (clj-http) is
modelled by a record of four abstract request functions, one per verb; the
JSON library (`clojure.data.json`) is modelled by an executable writer
(`writeStr`) and reader (`readStr`); exceptions are modelled by the
`ClientError` type together with `Except`.

The frontend component `GuideDetail.jsx` is pure view logic and is out of
scope, as the specification states.
-/

/-- Clojure runtime values relevant to the HTTP client: nil, booleans,
integers (Long), floating point numbers kept as their literal text,
strings, keywords, vectors/lists, and (array-)maps as ordered entry
lists.  Small Clojure map literals preserve insertion order, which is
what the ordered entry list models. -/
inductive Clj where
  | nil
  | bool (b : Bool)
  | int (n : Int)
  | dec (lit : String)
  | str (s : String)
  | kw (s : String)
  | list (xs : List Clj)
  | map (es : List (Clj × Clj))

/-- Exceptions that the embedded client can signal.  `assertFailed` models
`java.lang.AssertionError` thrown by a failed `:pre` condition (an `Error`,
hence not caught by `catch Exception`); all other variants model
`java.lang.Exception` subclasses. -/
inductive ClientError where
  | assertFailed (form : String)
  | statusMismatch (msg : String)
  | formatFailed
  | writeFailed
  | caseFailed
  | kwargsFailed
  | transportFailed (msg : String)
  deriving DecidableEq

/-- Whether a `catch Exception` handler catches this throwable: everything
except `AssertionError` (which extends `java.lang.Error`). -/
def ClientError.catchable : ClientError → Bool
  | .assertFailed _ => false
  | _ => true

mutual

/-- Clojure equality `=` restricted to the value universe of the client
(structural equality; a Long and a Double are never equal, as in Clojure). -/
def cljBeq : Clj → Clj → Bool
  | .nil, .nil => true
  | .bool a, .bool b => a == b
  | .int a, .int b => a == b
  | .dec a, .dec b => a == b
  | .str a, .str b => a == b
  | .kw a, .kw b => a == b
  | .list xs, .list ys => cljListBeq xs ys
  | .map es, .map fs => cljMapBeq es fs
  | _, _ => false

/-- Elementwise `cljBeq` on sequences. -/
def cljListBeq : List Clj → List Clj → Bool
  | [], [] => true
  | x :: xs, y :: ys => cljBeq x y && cljListBeq xs ys
  | _, _ => false

/-- Entrywise `cljBeq` on map entry lists. -/
def cljMapBeq : List (Clj × Clj) → List (Clj × Clj) → Bool
  | [], [] => true
  | (k, v) :: es, (l, w) :: fs => cljBeq k l && cljBeq v w && cljMapBeq es fs
  | _, _ => false

end

/-- Lookup of a key in an ordered entry list, first match wins. -/
def lookupEntries : List (Clj × Clj) → Clj → Clj
  | [], _ => .nil
  | (k, v) :: es, key => if cljBeq k key then v else lookupEntries es key

/-- Clojure `(get m k)` / keyword lookup `(:k m)`: returns the stored value
for maps, and nil for every non-associative value. -/
def cljGet (m k : Clj) : Clj :=
  match m with
  | .map es => lookupEntries es k
  | _ => .nil

/-- Clojure `nil?`. -/
def isNil : Clj → Bool
  | .nil => true
  | _ => false

/-- Clojure `map?`. -/
def isMap : Clj → Bool
  | .map _ => true
  | _ => false

/-- Clojure `string?`. -/
def isString : Clj → Bool
  | .str _ => true
  | _ => false

/-- Clojure `integer?`. -/
def isInteger : Clj → Bool
  | .int _ => true
  | _ => false

/-- Clojure `keyword?`. -/
def isKeyword : Clj → Bool
  | .kw _ => true
  | _ => false

/-- Clojure truthiness: nil and false are falsey, everything else truthy. -/
def cljTruthy : Clj → Bool
  | .nil => false
  | .bool b => b
  | _ => true

/-- Clojure `name` on keywords and strings (the only uses in the source;
`name` on anything else throws and is unreachable behind the preconditions). -/
def cljName : Clj → String
  | .kw s => s
  | .str s => s
  | _ => ""

/-- ASCII upper-casing of one character. -/
def upperChar (c : Char) : Char :=
  if 96 < c.toNat && c.toNat < 123 then Char.ofNat (c.toNat - 32) else c

/-- Model of Java `String.toUpperCase` as used on the method name (the
method names are plain ASCII). -/
def strUpper (s : String) : String :=
  ⟨s.data.map upperChar⟩

/-- Escape for readable printing of string literals inside collections
(backslash and double quote, as `pr-str` does). -/
def prEscape (s : String) : String :=
  String.join (s.data.map fun c =>
    if c = '\\' then "\\\\" else if c = '"' then "\\\"" else String.singleton c)

mutual

/-- Readable (pr-style) printing, as Clojure collections print their
elements in `toString`. -/
def prStr : Clj → String
  | .nil => "nil"
  | .bool b => cond b "true" "false"
  | .int n => toString n
  | .dec lit => lit
  | .str s => "\"" ++ prEscape s ++ "\""
  | .kw s => ":" ++ s
  | .list xs => "[" ++ prListStr xs ++ "]"
  | .map es => "\x7b" ++ prMapStr es ++ "\x7d"

/-- Space-separated readable printing of sequence elements. -/
def prListStr : List Clj → String
  | [] => ""
  | [x] => prStr x
  | x :: xs => prStr x ++ " " ++ prListStr xs

/-- Comma-separated readable printing of map entries. -/
def prMapStr : List (Clj × Clj) → String
  | [] => ""
  | [(k, v)] => prStr k ++ " " ++ prStr v
  | (k, v) :: es => prStr k ++ " " ++ prStr v ++ ", " ++ prMapStr es

end

/-- Clojure `str` on one value: nil prints as the empty string, strings
print as themselves, keywords with a leading colon, collections readably. -/
def cljToStr : Clj → String
  | .nil => ""
  | .str s => s
  | .kw s => ":" ++ s
  | x => prStr x

/-- Precondition `(contains? #\x7b:get :post :put :delete\x7d method)` of `-client`. -/
def methodValid (m : Clj) : Bool :=
  cljBeq m (.kw "get") || cljBeq m (.kw "post") ||
  cljBeq m (.kw "put") || cljBeq m (.kw "delete")

/-- Hex digit character (lowercase), for unicode escapes. -/
def hexDigitChar (n : Nat) : Char :=
  if n < 10 then Char.ofNat (48 + n) else Char.ofNat (87 + n)

/-- Four-digit lowercase hex rendering of a code point, as
`(format "\\u%04x" cp)` in clojure.data.json. -/
def u16Hex (n : Nat) : String :=
  ⟨[hexDigitChar (n / 4096 % 16), hexDigitChar (n / 256 % 16),
    hexDigitChar (n / 16 % 16), hexDigitChar (n % 16)]⟩

/-- Character escaping of clojure.data.json `write-string` with its default
options `:escape-unicode true` and `:escape-slash true`: printable ASCII is
written literally, the JSON two-character escapes are used where they exist,
everything else becomes a `\uXXXX` escape. -/
def escapeJsonChar (c : Char) : String :=
  if c = '"' then "\\\""
  else if c = '\\' then "\\\\"
  else if c = '/' then "\\/"
  else if c.toNat = 8 then "\\b"
  else if c.toNat = 12 then "\\f"
  else if c = '\n' then "\\n"
  else if c.toNat = 13 then "\\r"
  else if c = '\t' then "\\t"
  else if 31 < c.toNat && c.toNat < 127 then String.singleton c
  else "\\u" ++ u16Hex c.toNat

/-- JSON string-body escaping (applied between the surrounding quotes). -/
def jsonEscape (s : String) : String :=
  String.join (s.data.map escapeJsonChar)

/-- Map keys under clojure.data.json `default-write-key-fn`: a keyword (or
any Named) writes as its name, a nil key throws, anything else writes as its
`str` rendering. -/
def writeKeyStr : Clj → Option String
  | .nil => none
  | .kw s => some s
  | x => some (cljToStr x)

mutual

/-- Model of `clojure.data.json/write-str` with default options: serialize a
value to its JSON text.  `none` models the exception thrown on a nil map
key.  Doubles are kept as their literal text. -/
def writeStr : Clj → Option String
  | .nil => some "null"
  | .bool b => some (cond b "true" "false")
  | .int n => some (toString n)
  | .dec lit => some lit
  | .str s => some ("\"" ++ jsonEscape s ++ "\"")
  | .kw s => some ("\"" ++ jsonEscape s ++ "\"")
  | .list xs =>
      match writeListStr xs with
      | some b => some ("[" ++ b ++ "]")
      | none => none
  | .map es =>
      match writeEntriesStr es with
      | some b => some ("\x7b" ++ b ++ "\x7d")
      | none => none

/-- Comma-joined JSON texts of sequence elements. -/
def writeListStr : List Clj → Option String
  | [] => some ""
  | [x] => writeStr x
  | x :: xs =>
      match writeStr x, writeListStr xs with
      | some a, some b => some (a ++ "," ++ b)
      | _, _ => none

/-- Comma-joined JSON texts of map entries, each as `"key":value`. -/
def writeEntriesStr : List (Clj × Clj) → Option String
  | [] => some ""
  | [(k, v)] =>
      match writeKeyStr k, writeStr v with
      | some ks, some vs => some ("\"" ++ jsonEscape ks ++ "\":" ++ vs)
      | _, _ => none
  | (k, v) :: es =>
      match writeKeyStr k, writeStr v, writeEntriesStr es with
      | some ks, some vs, some rest =>
          some ("\"" ++ jsonEscape ks ++ "\":" ++ vs ++ "," ++ rest)
      | _, _, _ => none

end

/-- JSON whitespace accepted between tokens by the reader. -/
def jsonWsChar (c : Char) : Bool :=
  c = ' ' || c = '\t' || c = '\n' || c.toNat = 13

/-- Drop leading JSON whitespace. -/
def skipWs : List Char → List Char
  | [] => []
  | c :: cs => if jsonWsChar c then skipWs cs else c :: cs

/-- Value of one hex digit, if any. -/
def hexVal (c : Char) : Option Nat :=
  if '0' ≤ c && c ≤ '9' then some (c.toNat - 48)
  else if 'a' ≤ c && c ≤ 'f' then some (c.toNat - 87)
  else if 'A' ≤ c && c ≤ 'F' then some (c.toNat - 55)
  else none

/-- Read the body of a JSON string literal (the opening quote already
consumed); returns the decoded characters and the remaining input after the
closing quote.  Mirrors clojure.data.json `read-quoted-string`: the escapes
are the standard two-character ones plus `\uXXXX`. -/
def readStringChars : List Char → Option (List Char × List Char)
  | [] => none
  | '"' :: rest => some ([], rest)
  | '\\' :: 'u' :: a :: b :: c :: d :: rest =>
      match hexVal a, hexVal b, hexVal c, hexVal d with
      | some x, some y, some z, some w =>
          match readStringChars rest with
          | some (cs, r) => some (Char.ofNat (4096 * x + 256 * y + 16 * z + w) :: cs, r)
          | none => none
      | _, _, _, _ => none
  | '\\' :: e :: rest =>
      let dec : Option Char :=
        if e = '"' then some '"'
        else if e = '\\' then some '\\'
        else if e = '/' then some '/'
        else if e = 'b' then some (Char.ofNat 8)
        else if e = 'f' then some (Char.ofNat 12)
        else if e = 'n' then some '\n'
        else if e = 'r' then some (Char.ofNat 13)
        else if e = 't' then some '\t'
        else none
      match dec with
      | some ch =>
          match readStringChars rest with
          | some (cs, r) => some (ch :: cs, r)
          | none => none
      | none => none
  | c :: rest =>
      match readStringChars rest with
      | some (cs, r) => some (c :: cs, r)
      | none => none

/-- Characters the number reader consumes into one token. -/
def numTokenChar (c : Char) : Bool :=
  c.isDigit || c = '-' || c = '+' || c = '.' || c = 'e' || c = 'E'

/-- Numeric value of a digit string. -/
def natOfDigits (cs : List Char) : Nat :=
  cs.foldl (fun acc c => 10 * acc + (c.toNat - 48)) 0

/-- Exponent tail `[+-]?digits`, nonempty. -/
def expTailOk : List Char → Bool
  | [] => false
  | '+' :: ds => !ds.isEmpty && ds.all Char.isDigit
  | '-' :: ds => !ds.isEmpty && ds.all Char.isDigit
  | ds => ds.all Char.isDigit

/-- Classify one numeric token the way clojure.data.json `read-number`
does: a token matching `-?digits` becomes a Long, a token with a fraction
or exponent part becomes a Double (kept here as its literal text), anything
else is a parse error. -/
def parseNumToken (cs : List Char) : Option Clj :=
  let core := fun (sign : Bool) (body : List Char) =>
    let ip := body.takeWhile Char.isDigit
    let r1 := body.dropWhile Char.isDigit
    if ip.isEmpty then none
    else
      let ival : Int := if sign then -(natOfDigits ip : Int) else (natOfDigits ip : Int)
      match r1 with
      | [] => some (Clj.int ival)
      | '.' :: r2 =>
          let fp := r2.takeWhile Char.isDigit
          let r3 := r2.dropWhile Char.isDigit
          if fp.isEmpty then none
          else
            match r3 with
            | [] => some (Clj.dec ⟨cs⟩)
            | e :: r4 =>
                if (e = 'e' || e = 'E') && expTailOk r4 then some (Clj.dec ⟨cs⟩) else none
      | e :: r4 =>
          if (e = 'e' || e = 'E') && expTailOk r4 then some (Clj.dec ⟨cs⟩) else none
  match cs with
  | '-' :: body => core true body
  | body => core false body

/-- Expect a fixed literal suffix (for `true`, `false`, `null`). -/
def expectChars : List Char → List Char → Option (List Char)
  | [], rest => some rest
  | e :: es, c :: rest => if c = e then expectChars es rest else none
  | _ :: _, [] => none

mutual

/-- Model of one step of the clojure.data.json reader: parse one JSON value
from the input, returning it with the remaining input.  Fuel bounds the
nesting depth; `readStr` supplies more fuel than any input can consume. -/
def parseVal : Nat → List Char → Option (Clj × List Char)
  | 0, _ => none
  | fuel + 1, cs =>
      match skipWs cs with
      | [] => none
      | c :: rest =>
          if c = '\x7b' then
            match parseObj fuel rest with
            | some (es, r) => some (.map es, r)
            | none => none
          else if c = '[' then
            match parseArr fuel rest with
            | some (xs, r) => some (.list xs, r)
            | none => none
          else if c = '"' then
            match readStringChars rest with
            | some (body, r) => some (.str ⟨body⟩, r)
            | none => none
          else if c = 't' then
            match expectChars ['r', 'u', 'e'] rest with
            | some r => some (.bool true, r)
            | none => none
          else if c = 'f' then
            match expectChars ['a', 'l', 's', 'e'] rest with
            | some r => some (.bool false, r)
            | none => none
          else if c = 'n' then
            match expectChars ['u', 'l', 'l'] rest with
            | some r => some (.nil, r)
            | none => none
          else if c = '-' || c.isDigit then
            let tok := (c :: rest).takeWhile numTokenChar
            let r := (c :: rest).dropWhile numTokenChar
            match parseNumToken tok with
            | some v => some (v, r)
            | none => none
          else none

/-- Parse an object body after the opening brace. -/
def parseObj : Nat → List Char → Option (List (Clj × Clj) × List Char)
  | 0, _ => none
  | fuel + 1, cs =>
      match skipWs cs with
      | '\x7d' :: r => some ([], r)
      | other => parseObjRest fuel other

/-- Parse one `"key": value` pair and the rest of an object body. -/
def parseObjRest : Nat → List Char → Option (List (Clj × Clj) × List Char)
  | 0, _ => none
  | fuel + 1, cs =>
      match skipWs cs with
      | '"' :: r =>
          match readStringChars r with
          | some (keyChars, r1) =>
              (match skipWs r1 with
               | ':' :: r2 =>
                   match parseVal fuel r2 with
                   | some (v, r3) =>
                       (match skipWs r3 with
                        | ',' :: r4 =>
                            (match parseObjRest fuel r4 with
                             | some (es, r5) => some ((Clj.str ⟨keyChars⟩, v) :: es, r5)
                             | none => none)
                        | '\x7d' :: r4 => some ([(Clj.str ⟨keyChars⟩, v)], r4)
                        | _ => none)
                   | none => none
               | _ => none)
          | none => none
      | _ => none

/-- Parse an array body after the opening bracket. -/
def parseArr : Nat → List Char → Option (List Clj × List Char)
  | 0, _ => none
  | fuel + 1, cs =>
      match skipWs cs with
      | ']' :: r => some ([], r)
      | other => parseArrRest fuel other

/-- Parse one element and the rest of an array body. -/
def parseArrRest : Nat → List Char → Option (List Clj × List Char)
  | 0, _ => none
  | fuel + 1, cs =>
      match parseVal fuel cs with
      | some (v, r) =>
          (match skipWs r with
           | ',' :: r2 =>
               (match parseArrRest fuel r2 with
                | some (xs, r3) => some (v :: xs, r3)
                | none => none)
           | ']' :: r2 => some ([v], r2)
           | _ => none)
      | none => none

end

/-- Model of `clojure.data.json/read-str` with default options: parse the
first JSON value of the string (string map keys stay strings, trailing
input is ignored, empty input is an eof error). -/
def readStr (s : String) : Option Clj :=
  match parseVal (2 * s.length + 4) s.data with
  | some (v, _) => some v
  | none => none

/-- Key transformation of `clojure.walk/keywordize-keys`: a string key
becomes the keyword with that name, any other key is left alone. -/
def kkKey : Clj → Clj
  | .str s => .kw s
  | k => k

mutual

/-- Model of `clojure.walk/keywordize-keys`: recursively transform every
map of the form into one whose string keys are keywords.  The walk is a
postwalk, so keys and values are transformed before the key test runs. -/
def keywordizeKeys : Clj → Clj
  | .map es => .map (kkEntries es)
  | .list xs => .list (kkList xs)
  | x => x

/-- Keywordize every element of a sequence. -/
def kkList : List Clj → List Clj
  | [] => []
  | x :: xs => keywordizeKeys x :: kkList xs

/-- Keywordize every entry of a map. -/
def kkEntries : List (Clj × Clj) → List (Clj × Clj)
  | [] => []
  | (k, v) :: es => (kkKey (keywordizeKeys k), keywordizeKeys v) :: kkEntries es

end

/-- Response-body postprocessing of `-client`:
`(try (-> body json/read-str clojure.walk/keywordize-keys) (catch Exception _ body))`.
Parsing a non-string (for example nil) throws and is caught, so any
non-string body is returned as is, and so is a string that is not valid
JSON. -/
def deserializeBody (body : Clj) : Clj :=
  match body with
  | .str s =>
      match readStr s with
      | some v => keywordizeKeys v
      | none => .str s
  | b => b

/-- Pair conversion inside `build-url`:
`(if (keyword? k) (name k) k)` applied to a key or value. -/
def kwName : Clj → Clj
  | .kw s => .str s
  | x => x

/-- Clojure `(apply str coll)`: concatenation of the `str` of each element. -/
def applyStrL : List Clj → String
  | [] => ""
  | x :: xs => cljToStr x ++ applyStrL xs

/-- Clojure `interpose`. -/
def interposeL (sep : Clj) : List Clj → List Clj
  | [] => []
  | [x] => [x]
  | x :: xs => x :: sep :: interposeL sep xs

/-- Query-string pipeline of `build-url` for a nonempty kwargs map:
convert keyword keys and values to their names, interpose `=` inside each
pair, `str` each pair together, interpose `&` between pairs, and `str` the
whole thing together. -/
def queryString (es : List (Clj × Clj)) : String :=
  applyStrL (interposeL (.str "&")
    ((es.map fun kv => [kwName kv.1, kwName kv.2]).map
      fun p => .str (applyStrL (interposeL (.str "=") p))))

/-- Model of `build-url`: its two preconditions, then
`(str *url-prefix* url (when-not (empty? url-param-kwargs) (str "?" ...)))`.
The first argument is the current value of the dynamic var `*url-prefix*`. -/
def build_url (pre : String) (url urlParamKwargs : Clj) : Except ClientError String :=
  match url with
  | .str path =>
      match urlParamKwargs with
      | .nil => .ok (pre ++ path)
      | .map es => .ok (pre ++ path ++ (if es.isEmpty then "" else "?" ++ queryString es))
      | _ => .error (.assertFailed "(or (nil? url-param-kwargs) (map? url-param-kwargs))")
  | _ => .error (.assertFailed "(string? url)")

/-- Default value of the dynamic var `*url-prefix*`. -/
def urlPrefixDefault : String := "http://localhost:3000/api/"

/-- Outcome of one call into clj-http: a response map, a thrown
`clojure.lang.ExceptionInfo` carrying its ex-data map, or any other thrown
exception (carrying only a message). -/
inductive TransportResult where
  | ok (resp : Clj)
  | exInfo (data : Clj)
  | exOther (msg : String)

/-- The request map `-client` builds and hands to the transport:
`\x7b:content-type :json :accept :json :headers \x7b"X-METABASE-SESSION" token\x7d :body bodyStr\x7d`. -/
structure RequestMap where
  contentType : Clj
  accept : Clj
  sessionHeader : Clj
  body : String

/-- Abstract model of the clj-http transport: one request function per
verb (`client/get`, `client/post`, `client/put`, `client/delete`). -/
structure Transport where
  get : String → RequestMap → TransportResult
  post : String → RequestMap → TransportResult
  put : String → RequestMap → TransportResult
  delete : String → RequestMap → TransportResult

/-- The `case` dispatch of `-client` from the method keyword to the
request function; no other value has a matching clause. -/
def requestFn (t : Transport) : Clj → Option (String → RequestMap → TransportResult)
  | .kw "get" => some t.get
  | .kw "post" => some t.post
  | .kw "put" => some t.put
  | .kw "delete" => some t.delete
  | _ => none

/-- The try/catch around the request in `-client`: a normal return is used
as is, a thrown `ExceptionInfo` is replaced by the `:object` entry of its
ex-data, any other throw propagates. -/
def transportOutcome : TransportResult → Except ClientError Clj
  | .ok resp => .ok resp
  | .exInfo data => .ok (cljGet data (.kw "object"))
  | .exOther msg => .error (.transportFailed msg)

/-- Java `String.format` conversion `%d` applied to one argument: a null
argument prints as "null", a Long prints in decimal, any other argument
throws `IllegalFormatConversionException`. -/
def formatIntArg : Clj → Option String
  | .nil => some "null"
  | .int n => some (toString n)
  | _ => none

/-- Body of `-client` after its preconditions, given the session token the
header was built with: serialize the body, pick the request function,
build the URL, perform the request, check the expected status, and
deserialize the response body. -/
def clientCore (t : Transport) (pre : String)
    (method expectedStatus url httpBody urlParamKwargs sessionToken : Clj) :
    Except ClientError Clj :=
  match writeStr httpBody with
  | none => .error .writeFailed
  | some bodyStr =>
      let requestMap : RequestMap := ⟨.kw "json", .kw "json", sessionToken, bodyStr⟩
      match requestFn t method with
      | none => .error .caseFailed
      | some f =>
          match build_url pre url urlParamKwargs with
          | .error e => .error e
          | .ok fullUrl =>
              let methodName := strUpper (cljName method)
              match transportOutcome (f fullUrl requestMap) with
              | .error e => .error e
              | .ok resp =>
                  let status := cljGet resp (.kw "status")
                  let body := cljGet resp (.kw "body")
                  if cljTruthy expectedStatus && !cljBeq status expectedStatus then
                    match formatIntArg expectedStatus with
                    | none => .error .formatFailed
                    | some expStr =>
                        match formatIntArg status with
                        | none => .error .formatFailed
                        | some actStr =>
                            .error (.statusMismatch
                              (methodName ++ " " ++ fullUrl ++
                               " expected a status code of " ++ expStr ++
                               ", got " ++ actStr))
                  else .ok (deserializeBody body)

/-- The `:pre` conditions of `-client`, in source order; returns the first
failing form, if any (Clojure raises an AssertionError naming that form). -/
def clientAssert (credentials method expectedStatus url httpBody urlParamKwargs : Clj) :
    Option String :=
  if !(isNil credentials || isMap credentials) then
    some "(or (nil? credentials) (map? credentials))"
  else if !methodValid method then
    some "(contains? #\x7b:get :post :put :delete\x7d method)"
  else if !(isNil expectedStatus || isInteger expectedStatus) then
    some "(or (nil? expected-status) (integer? expected-status))"
  else if !isString url then
    some "(string? url)"
  else if !(isNil httpBody || isMap httpBody) then
    some "(or (nil? http-body) (map? http-body))"
  else if !(isNil urlParamKwargs || isMap urlParamKwargs) then
    some "(or (nil? url-param-kwargs) (map? url-param-kwargs))"
  else none

/-- Modelled from the spec: `metabase.util/optional` is not under src/;
per the docstring of `client` and the specification, it peels the first
argument off when the predicate accepts it: credentials, expected-status
and body are optional and type-sniffed from position. -/
def u_optional (pred : Clj → Bool) (args : List Clj) : Option Clj × List Clj :=
  match args with
  | x :: rest => if pred x then (some x, rest) else (none, args)
  | [] => (none, [])

/-- Clojure keyword-arguments destructuring `[& \x7b:as m\x7d]` of the leftover
arguments: pairs them up into a map (nil when there are none); an odd
number of leftover arguments throws. -/
def kwargPairs : List Clj → Option (List (Clj × Clj))
  | [] => some []
  | [_] => none
  | k :: v :: rest =>
      match kwargPairs rest with
      | some es => some ((k, v) :: es)
      | none => none

/-- Build the `url-param-kwargs` value from the leftover arguments. -/
def kwargsMap (args : List Clj) : Option Clj :=
  match kwargPairs args with
  | some [] => some .nil
  | some es => some (.map es)
  | none => none

/-- Argument resolution performed by the variadic `client` wrapper:
`(let [[credentials [method & args]] (u/optional map? args)
       [expected-status [url & args]] (u/optional integer? args)
       [body [& \x7b:as url-param-kwargs\x7d]] (u/optional map? args)] ...)`;
returns (credentials, method, expected-status, url, http-body,
url-param-kwargs), or `none` for the throw on odd keyword arguments. -/
def clientArgsParse (args : List Clj) :
    Option (Clj × Clj × Clj × Clj × Clj × Clj) :=
  let r1 := u_optional isMap args
  let credentials := r1.1.getD .nil
  let method := r1.2.headD .nil
  let args2 := r1.2.tail
  let r2 := u_optional isInteger args2
  let expectedStatus := r2.1.getD .nil
  let url := r2.2.headD .nil
  let args3 := r2.2.tail
  let r3 := u_optional isMap args3
  let httpBody := r3.1.getD .nil
  match kwargsMap r3.2 with
  | some urlParamKwargs => some (credentials, method, expectedStatus, url, httpBody, urlParamKwargs)
  | none => none

/-- The nested `(client :post 200 "session" credentials)` issued by
`authenticate`.  The variadic resolution runs on the literal argument list;
its credentials slot resolves to nil (`:post` is not a map), so the
nested `-client` call takes the no-credentials branch and its session
header is nil.  The bridging theorems below prove this equal to the
general `client`/`clientImpl` on the same arguments. -/
def clientSessionCall (t : Transport) (pre : String) (credentials : Clj) :
    Except ClientError Clj :=
  match clientArgsParse [Clj.kw "post", Clj.int 200, Clj.str "session", credentials] with
  | none => .error .kwargsFailed
  | some (_, method, expectedStatus, url, httpBody, urlParamKwargs) =>
      match clientAssert .nil method expectedStatus url httpBody urlParamKwargs with
      | some form => .error (.assertFailed form)
      | none => clientCore t pre method expectedStatus url httpBody urlParamKwargs .nil

/-- The try/catch of `authenticate` around `(-> (client ...) :id)`: a
normal result yields its `:id` entry, a thrown Exception is caught (the
handler prints and returns nil), a thrown AssertionError propagates. -/
def authCatch : Except ClientError Clj → Except ClientError Clj
  | .ok v => .ok (cljGet v (.kw "id"))
  | .error e => if e.catchable then .ok .nil else .error e

/-- Model of `authenticate`: the `:pre` checks `(string? email)` and
`(string? password)` on the destructured credentials, then the nested
session POST with its result piped through `:id`, all failures of the
nested call other than assertion errors swallowed to nil. -/
def authenticate (t : Transport) (pre : String) (credentials : Clj) :
    Except ClientError Clj :=
  if !isString (cljGet credentials (.kw "email")) then
    .error (.assertFailed "(string? email)")
  else if !isString (cljGet credentials (.kw "password")) then
    .error (.assertFailed "(string? password)")
  else authCatch (clientSessionCall t pre credentials)

/-- The session token `-client` puts in the X-METABASE-SESSION header:
`(when credentials (authenticate credentials))`. -/
def tokenOf (t : Transport) (pre : String) (credentials : Clj) :
    Except ClientError Clj :=
  if cljTruthy credentials then authenticate t pre credentials else .ok .nil

/-- Model of `-client`: preconditions in source order, then the request
map (whose session header forces the nested authentication when
credentials were given), verb dispatch, URL building, the request itself,
the expected-status check and response deserialization. -/
def clientImpl (t : Transport) (pre : String)
    (credentials method expectedStatus url httpBody urlParamKwargs : Clj) :
    Except ClientError Clj :=
  match clientAssert credentials method expectedStatus url httpBody urlParamKwargs with
  | some form => .error (.assertFailed form)
  | none =>
      match tokenOf t pre credentials with
      | .error e => .error e
      | .ok token => clientCore t pre method expectedStatus url httpBody urlParamKwargs token

/-- Model of the public variadic `client`: resolve the optional
positional arguments, then call `-client`. -/
def client (t : Transport) (pre : String) (args : List Clj) :
    Except ClientError Clj :=
  match clientArgsParse args with
  | none => .error .kwargsFailed
  | some (credentials, method, expectedStatus, url, httpBody, urlParamKwargs) =>
      clientImpl t pre credentials method expectedStatus url httpBody urlParamKwargs

/-- Spec-side rendering of one query parameter: the plain name of a
keyword, the `str` form of anything else.  Used to state the URL-building
claims; the theorems compare the source pipeline against it. -/
def renderParam (x : Clj) : String := cljToStr (kwName x)

/-- Spec-side joining of rendered `key=value` pairs with `&`. -/
def joinAmp : List String → String
  | [] => ""
  | [x] => x
  | x :: xs => x ++ "&" ++ joinAmp xs

/-- A transport that gives the same result for every verb and request. -/
def respondWith (r : TransportResult) : Transport :=
  ⟨fun _ _ => r, fun _ _ => r, fun _ _ => r, fun _ _ => r⟩

/-- A response map `\x7b:status s :body b\x7d` as the server returns it. -/
def mkResp (status : Int) (body : String) : Clj :=
  .map [(.kw "status", .int status), (.kw "body", .str body)]

/-- A mock server answering every request with 200 and a card JSON body. -/
def Tcard : Transport :=
  respondWith (.ok (mkResp 200 "\x7b\"id\": 1, \"name\": \"My Card\"\x7d"))

/-- A mock server answering every request with 404 and a non-JSON body. -/
def T404 : Transport := respondWith (.ok (mkResp 404 "Not Found"))

/-- A mock server answering every request with 200 and a session JSON body. -/
def Tsess : Transport := respondWith (.ok (mkResp 200 "\x7b\"id\": \"tok123\"\x7d"))

/-- A mock server answering every request with 401. -/
def T401 : Transport := respondWith (.ok (mkResp 401 "Unauthorized"))

/-- A mock transport that throws an ExceptionInfo carrying an error
response under `:object`, as clj-http does for exceptional statuses. -/
def TexInfo : Transport :=
  respondWith (.exInfo (.map [(.kw "object", mkResp 400 "\x7b\"err\": true\x7d")]))

/-- A mock transport that throws a plain connection exception. -/
def Tdown : Transport := respondWith (.exOther "Connection refused")

/-- A mock server whose answer depends only on whether the request body is
the JSON text "null"; tagged A. -/
def TbodyA : Transport :=
  let f : String → RequestMap → TransportResult := fun _ rm =>
    if rm.body = "null" then .ok (mkResp 200 "1") else .ok (mkResp 500 "\"A\"")
  ⟨f, f, f, f⟩

/-- Same agreement on "null" bodies as `TbodyA`, different elsewhere;
tagged B. -/
def TbodyB : Transport :=
  let f : String → RequestMap → TransportResult := fun _ rm =>
    if rm.body = "null" then .ok (mkResp 200 "1") else .ok (mkResp 500 "\"B\"")
  ⟨f, f, f, f⟩

/-- Credentials with empty-string email and password. -/
def credsEmpty : Clj := .map [(.kw "email", .str ""), (.kw "password", .str "")]

/-- Well-formed credentials. -/
def credsGood : Clj := .map [(.kw "email", .str "a@b.c"), (.kw "password", .str "pw")]

/-- Credentials whose email is not a string. -/
def credsBadEmail : Clj := .map [(.kw "email", .int 7), (.kw "password", .str "pw")]

mutual

theorem cljBeq_iff : ∀ (a b : Clj), cljBeq a b = true ↔ a = b
  | .nil, b => by cases b <;> simp [cljBeq]
  | .bool x, b => by cases b <;> simp [cljBeq]
  | .int x, b => by cases b <;> simp [cljBeq]
  | .dec x, b => by cases b <;> simp [cljBeq]
  | .str x, b => by cases b <;> simp [cljBeq]
  | .kw x, b => by cases b <;> simp [cljBeq]
  | .list xs, .list ys => by simp [cljBeq, cljListBeq_iff xs ys]
  | .list xs, .nil => by simp [cljBeq]
  | .list xs, .bool _ => by simp [cljBeq]
  | .list xs, .int _ => by simp [cljBeq]
  | .list xs, .dec _ => by simp [cljBeq]
  | .list xs, .str _ => by simp [cljBeq]
  | .list xs, .kw _ => by simp [cljBeq]
  | .list xs, .map _ => by simp [cljBeq]
  | .map es, .map fs => by simp [cljBeq, cljMapBeq_iff es fs]
  | .map es, .nil => by simp [cljBeq]
  | .map es, .bool _ => by simp [cljBeq]
  | .map es, .int _ => by simp [cljBeq]
  | .map es, .dec _ => by simp [cljBeq]
  | .map es, .str _ => by simp [cljBeq]
  | .map es, .kw _ => by simp [cljBeq]
  | .map es, .list _ => by simp [cljBeq]

theorem cljListBeq_iff : ∀ (xs ys : List Clj), cljListBeq xs ys = true ↔ xs = ys
  | [], [] => by simp [cljListBeq]
  | [], _ :: _ => by simp [cljListBeq]
  | _ :: _, [] => by simp [cljListBeq]
  | x :: xs, y :: ys => by
      simp [cljListBeq, cljBeq_iff x y, cljListBeq_iff xs ys]

theorem cljMapBeq_iff : ∀ (es fs : List (Clj × Clj)), cljMapBeq es fs = true ↔ es = fs
  | [], [] => by simp [cljMapBeq]
  | [], _ :: _ => by simp [cljMapBeq]
  | _ :: _, [] => by simp [cljMapBeq]
  | (k, v) :: es, (l, w) :: fs => by
      simp [cljMapBeq, cljBeq_iff k l, cljBeq_iff v w, cljMapBeq_iff es fs, Prod.ext_iff]

end

theorem cljBeq_refl (a : Clj) : cljBeq a a = true := (cljBeq_iff a a).mpr rfl

theorem cljBeq_eq_false_of_ne (a b : Clj) (h : a ≠ b) : cljBeq a b = false := by
  cases hb : cljBeq a b
  · rfl
  · exact absurd ((cljBeq_iff a b).mp hb) h

/-- If a lookup in a value produced a string, the value was a map. -/
theorem isMap_of_isString_get (c k : Clj) (h : isString (cljGet c k) = true) :
    isMap c = true := by
  cases c <;> simp_all [cljGet, isString, isMap]

/-- A keyword is never classified as a map, an integer, or a string. -/
theorem methodValid_cases (m : Clj) (h : methodValid m = true) :
    m = .kw "get" ∨ m = .kw "post" ∨ m = .kw "put" ∨ m = .kw "delete" := by
  simp only [methodValid, Bool.or_eq_true, cljBeq_iff] at h
  tauto

/-- The `case` dispatch on the four verbs picks the matching transport
function of any transport. -/
theorem requestFn_respondWith (r : TransportResult) (m : Clj)
    (h : methodValid m = true) :
    requestFn (respondWith r) m = some (fun _ _ => r) := by
  rcases methodValid_cases m h with h | h | h | h <;> subst h <;> rfl

/-- `build-url` can only fail with an assertion error. -/
theorem build_url_error_shape (pre : String) (u k : Clj) (e : ClientError)
    (h : build_url pre u k = .error e) : ∃ form, e = .assertFailed form := by
  unfold build_url at h
  cases u
  case str s =>
    cases k
    case nil => simp at h
    case map es => simp at h
    all_goals simp only [Except.error.injEq] at h
    all_goals exact ⟨_, h.symm⟩
  all_goals simp only [Except.error.injEq] at h
  all_goals exact ⟨_, h.symm⟩

/-- The request try/catch can only fail with a propagated transport error. -/
theorem transportOutcome_error_shape (r : TransportResult) (e : ClientError)
    (h : transportOutcome r = .error e) : ∃ msg, e = .transportFailed msg := by
  cases r
  · simp [transportOutcome] at h
  · simp [transportOutcome] at h
  · simp only [transportOutcome, Except.error.injEq] at h
    exact ⟨_, h.symm⟩

/-- A non-catchable throwable is an assertion error. -/
theorem catchable_false_shape (e : ClientError) (h : e.catchable = false) :
    ∃ form, e = .assertFailed form := by
  cases e <;> simp_all [ClientError.catchable]

/-- `authenticate` can only fail with an assertion error: every Exception
of the nested call is caught and turned into a nil token. -/
theorem authenticate_error_shape (t : Transport) (pre : String) (c : Clj)
    (e : ClientError) (h : authenticate t pre c = .error e) :
    ∃ form, e = .assertFailed form := by
  unfold authenticate at h
  split at h
  · simp only [Except.error.injEq] at h
    exact ⟨_, h.symm⟩
  · split at h
    · simp only [Except.error.injEq] at h
      exact ⟨_, h.symm⟩
    · unfold authCatch at h
      split at h
      · simp at h
      · rename_i e' _
        by_cases hc : e'.catchable = true
        · rw [if_pos hc] at h
          simp at h
        · rw [if_neg hc] at h
          simp only [Except.error.injEq] at h
          obtain ⟨form, hform⟩ := catchable_false_shape e' (by simpa using hc)
          exact ⟨form, by rw [← h]; exact hform⟩

/-- The session-token computation can only fail with an assertion error. -/
theorem tokenOf_error_shape (t : Transport) (pre : String) (c : Clj)
    (e : ClientError) (h : tokenOf t pre c = .error e) :
    ∃ form, e = .assertFailed form := by
  unfold tokenOf at h
  split at h
  · exact authenticate_error_shape t pre c e h
  · cases h

/-- The six `:pre` conditions of `-client`, as one conjunction. -/
theorem clientAssert_none_iff (c m e u b k : Clj) :
    clientAssert c m e u b k = none ↔
      ((isNil c || isMap c) = true ∧ methodValid m = true ∧
       (isNil e || isInteger e) = true ∧ isString u = true ∧
       (isNil b || isMap b) = true ∧ (isNil k || isMap k) = true) := by
  constructor
  · intro h
    unfold clientAssert at h
    split_ifs at h with h1 h2 h3 h4 h5 h6
    · simp only [Bool.not_eq_true, Bool.not_eq_false, Bool.not_eq_false'] at h1 h2 h3 h4 h5 h6
      exact ⟨h1, h2, h3, h4, h5, h6⟩
  · rintro ⟨h1, h2, h3, h4, h5, h6⟩
    unfold clientAssert
    simp [h1, h2, h3, h4, h5, h6]

/-- The preconditions of `-client` do not distinguish map credentials from
nil credentials. -/
theorem clientAssert_map_nil (c m e u b k : Clj) (hc : isMap c = true) :
    clientAssert c m e u b k = clientAssert .nil m e u b k := by
  unfold clientAssert
  rw [hc]
  simp [isNil]

/-- A call with no expected status can never raise a status-mismatch
error (after the preconditions). -/
theorem clientCore_nil_expected_no_mismatch (t : Transport) (pre : String)
    (m u b k tok : Clj) (msg : String) :
    clientCore t pre m .nil u b k tok ≠ .error (.statusMismatch msg) := by
  unfold clientCore
  intro h
  split at h
  · simp at h
  · split at h
    · simp at h
    · split at h
      · rename_i e heq
        obtain ⟨form, rfl⟩ := build_url_error_shape _ _ _ _ heq
        simp at h
      · have hfalse : ∀ x : Bool, (cljTruthy Clj.nil && x) = false := fun x => by
          simp [cljTruthy]
        simp only [hfalse, Bool.false_eq_true, if_false] at h
        split at h
        · rename_i e heq
          obtain ⟨msg2, rfl⟩ := transportOutcome_error_shape _ _ heq
          simp at h
        · simp at h

/-- The variadic resolution of the docstring example
`(client :get 200 "card/1")`. -/
theorem client_docstring_example (t : Transport) (pre : String) :
    client t pre [.kw "get", .int 200, .str "card/1"] =
      clientImpl t pre .nil (.kw "get") (.int 200) (.str "card/1") .nil .nil := rfl

/-- Bridging lemma: the nested session call of `authenticate` is exactly
the public `client` applied to `[:post 200 "session" credentials]`; in
particular the nested `-client` runs with nil credentials. -/
theorem clientSessionCall_eq_client (t : Transport) (pre : String) (credentials : Clj) :
    clientSessionCall t pre credentials =
      client t pre [.kw "post", .int 200, .str "session", credentials] := by
  cases credentials <;> rfl

/-- Unfolding of `-client` once its preconditions pass and the session
token is known. -/
theorem clientImpl_ok_token (t : Transport) (pre : String)
    (credentials method expectedStatus url httpBody urlParamKwargs token : Clj)
    (hassert : clientAssert credentials method expectedStatus url httpBody urlParamKwargs = none)
    (htoken : tokenOf t pre credentials = .ok token) :
    clientImpl t pre credentials method expectedStatus url httpBody urlParamKwargs =
      clientCore t pre method expectedStatus url httpBody urlParamKwargs token := by
  simp only [clientImpl, hassert, htoken]

/-- Unfolding of the request pipeline of `-client` on a successful
transport outcome, leaving only the status check and deserialization. -/
theorem clientCore_ok_resp (t : Transport) (pre : String)
    (method expectedStatus url httpBody urlParamKwargs tok : Clj)
    (bodyStr fullUrl : String) (f : String → RequestMap → TransportResult) (resp : Clj)
    (hwrite : writeStr httpBody = some bodyStr)
    (hf : requestFn t method = some f)
    (hurl : build_url pre url urlParamKwargs = .ok fullUrl)
    (hresp : transportOutcome (f fullUrl ⟨.kw "json", .kw "json", tok, bodyStr⟩) = .ok resp) :
    clientCore t pre method expectedStatus url httpBody urlParamKwargs tok =
      (if (cljTruthy expectedStatus &&
            !cljBeq (cljGet resp (.kw "status")) expectedStatus) = true then
        match formatIntArg expectedStatus with
        | none => .error .formatFailed
        | some expStr =>
            match formatIntArg (cljGet resp (.kw "status")) with
            | none => .error .formatFailed
            | some actStr =>
                .error (.statusMismatch (strUpper (cljName method) ++ " " ++ fullUrl ++
                  " expected a status code of " ++ expStr ++ ", got " ++ actStr))
      else .ok (deserializeBody (cljGet resp (.kw "body")))) := by
  simp only [clientCore, hwrite, hf, hurl, hresp]

/-- Clojure `str` of a string is that string. -/
theorem cljToStr_str (s : String) : cljToStr (.str s) = s := rfl

/-- The query-string pipeline of `build-url` equals the plainly stated
`&`-join of the `key=value` renderings in supplied order. -/
theorem queryString_eq_joinAmp : ∀ es : List (Clj × Clj),
    queryString es = joinAmp (es.map fun e => renderParam e.1 ++ "=" ++ renderParam e.2)
  | [] => rfl
  | [(k, v)] => by
      simp only [queryString, List.map_cons, List.map_nil, interposeL, applyStrL,
        cljToStr_str, joinAmp, renderParam, String.append_empty, String.append_assoc]
  | (k, v) :: e2 :: rest => by
      have ih := queryString_eq_joinAmp (e2 :: rest)
      simp only [queryString, List.map_cons, interposeL, applyStrL, cljToStr_str,
        String.append_empty] at ih ⊢
      rw [ih]
      simp only [List.map_cons, joinAmp, renderParam, String.append_assoc]

/-- C5: for every string path, when no query parameters are supplied (nil
or an empty mapping), build-url returns exactly the configured base-URL
prefix concatenated with the path, with no query-string separator
appended. -/
theorem build_url_no_params (pre path : String) :
    build_url pre (.str path) .nil = .ok (pre ++ path) ∧
    build_url pre (.str path) (.map []) = .ok (pre ++ path) := by
  constructor
  · rfl
  · simp [build_url]

/-- C4: for every string path and every non-empty query-parameter mapping,
build-url returns prefix + path + "?" + the key=value pairs joined by "&"
in the mapping's iteration order, keywords rendered as their plain names,
strings inserted verbatim with no URL-encoding or escaping. -/
theorem build_url_with_params (pre path : String) (kv : Clj × Clj) (es : List (Clj × Clj)) :
    build_url pre (.str path) (.map (kv :: es)) =
      .ok (pre ++ path ++ "?" ++
        joinAmp ((kv :: es).map fun e => renderParam e.1 ++ "=" ++ renderParam e.2)) ∧
    (∀ s, renderParam (.kw s) = s) ∧ (∀ s, renderParam (.str s) = s) := by
  refine ⟨?_, fun s => rfl, fun s => rfl⟩
  simp only [build_url, List.isEmpty_cons, Bool.false_eq_true, if_false]
  rw [queryString_eq_joinAmp]
  simp [String.append_assoc]

/-- C8: for every method value outside the enumerated verb set, execute
fails fast with the method precondition assertion, independently of the
transport (so before building a URL or issuing any request); each of the
four allowed verbs passes the precondition and selects the corresponding
transport call. -/
theorem method_precondition (t tOther : Transport) (pre : String)
    (credentials method expectedStatus url httpBody urlParamKwargs : Clj)
    (hm : methodValid method = false)
    (hc : (isNil credentials || isMap credentials) = true) :
    clientImpl t pre credentials method expectedStatus url httpBody urlParamKwargs =
      .error (.assertFailed "(contains? #\x7b:get :post :put :delete\x7d method)") ∧
    clientImpl t pre credentials method expectedStatus url httpBody urlParamKwargs =
      clientImpl tOther pre credentials method expectedStatus url httpBody urlParamKwargs ∧
    methodValid (.kw "get") = true ∧ methodValid (.kw "post") = true ∧
    methodValid (.kw "put") = true ∧ methodValid (.kw "delete") = true ∧
    (∀ tr : Transport, requestFn tr (.kw "get") = some tr.get ∧
      requestFn tr (.kw "post") = some tr.post ∧
      requestFn tr (.kw "put") = some tr.put ∧
      requestFn tr (.kw "delete") = some tr.delete) := by
  have hassert : clientAssert credentials method expectedStatus url httpBody urlParamKwargs =
      some "(contains? #\x7b:get :post :put :delete\x7d method)" := by
    unfold clientAssert
    rw [hc]
    simp [hm]
  refine ⟨?_, ?_, rfl, rfl, rfl, rfl, fun tr => ⟨rfl, rfl, rfl, rfl⟩⟩
  · simp [clientImpl, hassert]
  · simp [clientImpl, hassert]

/-- C8 witness: a PATCH keyword is rejected before any transport call. -/
theorem method_precondition_witness :
    clientImpl Tcard urlPrefixDefault .nil (.kw "patch") .nil (.str "x") .nil .nil =
      .error (.assertFailed "(contains? #\x7b:get :post :put :delete\x7d method)") ∧
    clientImpl Tcard urlPrefixDefault .nil (.kw "patch") .nil (.str "x") .nil .nil =
      clientImpl Tdown urlPrefixDefault .nil (.kw "patch") .nil (.str "x") .nil .nil :=
  ⟨(method_precondition Tcard Tdown urlPrefixDefault .nil (.kw "patch") .nil (.str "x")
      .nil .nil rfl rfl).1,
   (method_precondition Tcard Tdown urlPrefixDefault .nil (.kw "patch") .nil (.str "x")
      .nil .nil rfl rfl).2.1⟩

/-- C1: when expectedStatus is supplied and differs from the actual
response status, execute raises an error whose message is the upper-cased
method name, the full URL, the expected status and the actual status in
the format-string layout; when the statuses agree the call succeeds, and
when no expected status is supplied no status-mismatch error can ever be
raised. -/
theorem statusCheck_spec
    (t : Transport) (pre : String) (credentials method : Clj) (exp : Int)
    (url httpBody urlParamKwargs token : Clj)
    (bodyStr fullUrl : String) (f : String → RequestMap → TransportResult)
    (resp : Clj) (actual : Int)
    (hassert : clientAssert credentials method (.int exp) url httpBody urlParamKwargs = none)
    (htoken : tokenOf t pre credentials = .ok token)
    (hwrite : writeStr httpBody = some bodyStr)
    (hf : requestFn t method = some f)
    (hurl : build_url pre url urlParamKwargs = .ok fullUrl)
    (hresp : transportOutcome (f fullUrl ⟨.kw "json", .kw "json", token, bodyStr⟩) = .ok resp)
    (hstatus : cljGet resp (.kw "status") = .int actual) :
    (actual ≠ exp →
      clientImpl t pre credentials method (.int exp) url httpBody urlParamKwargs =
        .error (.statusMismatch (strUpper (cljName method) ++ " " ++ fullUrl ++
          " expected a status code of " ++ toString exp ++ ", got " ++ toString actual))) ∧
    (actual = exp →
      clientImpl t pre credentials method (.int exp) url httpBody urlParamKwargs =
        .ok (deserializeBody (cljGet resp (.kw "body")))) ∧
    (∀ (c m u b k : Clj) (msg : String),
      clientImpl t pre c m .nil u b k ≠ .error (.statusMismatch msg)) := by
  have himpl := clientImpl_ok_token t pre credentials method (.int exp) url httpBody
    urlParamKwargs token hassert htoken
  have hcore := clientCore_ok_resp t pre method (.int exp) url httpBody urlParamKwargs
    token bodyStr fullUrl f resp hwrite hf hurl hresp
  refine ⟨?_, ?_, ?_⟩
  · intro hne
    have hbeq : cljBeq (Clj.int actual) (Clj.int exp) = false :=
      cljBeq_eq_false_of_ne _ _ (by simp [hne])
    rw [himpl, hcore, hstatus]
    simp [hbeq, cljTruthy, formatIntArg]
  · intro heq
    subst heq
    rw [himpl, hcore, hstatus]
    simp [cljBeq_refl]
  · intro c m u b k msg h
    unfold clientImpl at h
    split at h
    · simp at h
    · split at h
      · rename_i e heq
        obtain ⟨form, rfl⟩ := tokenOf_error_shape _ _ _ _ heq
        simp at h
      · exact clientCore_nil_expected_no_mismatch _ _ _ _ _ _ _ msg h

/-- C1 witness: a GET expecting 200 against a 404 server raises the
documented message; the same GET with matching expectation 404 succeeds;
and with no expectation no mismatch error arises. -/
theorem statusCheck_spec_witness :
    clientImpl T404 urlPrefixDefault .nil (.kw "get") (.int 200) (.str "card/1") .nil .nil =
      .error (.statusMismatch
        "GET http://localhost:3000/api/card/1 expected a status code of 200, got 404") ∧
    clientImpl T404 urlPrefixDefault .nil (.kw "get") (.int 404) (.str "card/1") .nil .nil =
      .ok (.str "Not Found") := by
  constructor
  · have h := (statusCheck_spec T404 urlPrefixDefault .nil (.kw "get") 200 (.str "card/1")
      .nil .nil .nil "null" "http://localhost:3000/api/card/1" T404.get
      (mkResp 404 "Not Found") 404 rfl rfl rfl rfl rfl rfl rfl).1 (by decide)
    exact h
  · have h := (statusCheck_spec T404 urlPrefixDefault .nil (.kw "get") 404 (.str "card/1")
      .nil .nil .nil "null" "http://localhost:3000/api/card/1" T404.get
      (mkResp 404 "Not Found") 404 rfl rfl rfl rfl rfl rfl rfl).2.1 rfl
    exact h

/-- C2: for every call whose response carries a string body and whose
status check passes, the returned value is the parsed JSON with all map
keys keywordized recursively when the body parses, and the raw body text
unchanged when it does not; both outcomes are normal returns, so a parse
failure is never surfaced as an error. -/
theorem deserialize_spec
    (t : Transport) (pre : String) (credentials method expectedStatus : Clj)
    (url httpBody urlParamKwargs token : Clj) (bodyStr fullUrl : String)
    (f : String → RequestMap → TransportResult) (resp : Clj) (s : String)
    (hassert : clientAssert credentials method expectedStatus url httpBody urlParamKwargs = none)
    (htoken : tokenOf t pre credentials = .ok token)
    (hwrite : writeStr httpBody = some bodyStr)
    (hf : requestFn t method = some f)
    (hurl : build_url pre url urlParamKwargs = .ok fullUrl)
    (hresp : transportOutcome (f fullUrl ⟨.kw "json", .kw "json", token, bodyStr⟩) = .ok resp)
    (hbody : cljGet resp (.kw "body") = .str s)
    (hok : cljTruthy expectedStatus = false ∨
      cljBeq (cljGet resp (.kw "status")) expectedStatus = true) :
    (∀ v, readStr s = some v →
      clientImpl t pre credentials method expectedStatus url httpBody urlParamKwargs =
        .ok (keywordizeKeys v)) ∧
    (readStr s = none →
      clientImpl t pre credentials method expectedStatus url httpBody urlParamKwargs =
        .ok (.str s)) := by
  have himpl := clientImpl_ok_token t pre credentials method expectedStatus url httpBody
    urlParamKwargs token hassert htoken
  have hcore := clientCore_ok_resp t pre method expectedStatus url httpBody urlParamKwargs
    token bodyStr fullUrl f resp hwrite hf hurl hresp
  have hcond : (cljTruthy expectedStatus &&
      !cljBeq (cljGet resp (.kw "status")) expectedStatus) = false := by
    rcases hok with h | h <;> simp [h]
  constructor
  · intro v hv
    rw [himpl, hcore]
    simp [hcond, deserializeBody, hbody, hv]
  · intro hv
    rw [himpl, hcore]
    simp [hcond, deserializeBody, hbody, hv]

/-- C2 witness: a JSON object body comes back keywordized, a non-JSON body
comes back as the raw text; neither is an error. -/
theorem deserialize_spec_witness :
    clientImpl Tcard urlPrefixDefault .nil (.kw "get") .nil (.str "card/1") .nil .nil =
      .ok (.map [(.kw "id", .int 1), (.kw "name", .str "My Card")]) ∧
    clientImpl T404 urlPrefixDefault .nil (.kw "get") .nil (.str "card/1") .nil .nil =
      .ok (.str "Not Found") := by
  constructor
  · have h := (deserialize_spec Tcard urlPrefixDefault .nil (.kw "get") .nil (.str "card/1")
      .nil .nil .nil "null" "http://localhost:3000/api/card/1" Tcard.get
      (mkResp 200 "\x7b\"id\": 1, \"name\": \"My Card\"\x7d")
      "\x7b\"id\": 1, \"name\": \"My Card\"\x7d"
      rfl rfl rfl rfl rfl rfl rfl (Or.inl rfl)).1
      (.map [(.str "id", .int 1), (.str "name", .str "My Card")]) rfl
    exact h
  · have h := (deserialize_spec T404 urlPrefixDefault .nil (.kw "get") .nil (.str "card/1")
      .nil .nil .nil "null" "http://localhost:3000/api/card/1" T404.get
      (mkResp 404 "Not Found") "Not Found"
      rfl rfl rfl rfl rfl rfl rfl (Or.inl rfl)).2 rfl
    exact h

/-- Two transports agreeing on every request whose body is the serialized
body string are indistinguishable through the request pipeline: the only
request ever issued carries exactly that body. -/
theorem clientCore_transport_agree (t tOther : Transport) (pre : String)
    (method expectedStatus url httpBody urlParamKwargs tok : Clj) (bodyStr : String)
    (hwrite : writeStr httpBody = some bodyStr)
    (hm : methodValid method = true)
    (hagree : ∀ (u2 : String) (rm : RequestMap), rm.body = bodyStr →
      t.get u2 rm = tOther.get u2 rm ∧ t.post u2 rm = tOther.post u2 rm ∧
      t.put u2 rm = tOther.put u2 rm ∧ t.delete u2 rm = tOther.delete u2 rm) :
    clientCore t pre method expectedStatus url httpBody urlParamKwargs tok =
      clientCore tOther pre method expectedStatus url httpBody urlParamKwargs tok := by
  rcases methodValid_cases method hm with h | h | h | h <;> subst h <;>
    simp only [clientCore, hwrite, requestFn] <;>
    cases hurl : build_url pre url urlParamKwargs <;> dsimp only
  · rw [(hagree _ ⟨.kw "json", .kw "json", tok, bodyStr⟩ rfl).1]
  · rw [(hagree _ ⟨.kw "json", .kw "json", tok, bodyStr⟩ rfl).2.1]
  · rw [(hagree _ ⟨.kw "json", .kw "json", tok, bodyStr⟩ rfl).2.2.1]
  · rw [(hagree _ ⟨.kw "json", .kw "json", tok, bodyStr⟩ rfl).2.2.2]

/-- C10: the request handed to the transport always carries the JSON
serialization of the body argument as its body string — two transports
that agree on all requests with that body give equal results for every
verb — and serializing an absent (nil) body yields the literal string
"null", so a body-less call of any verb still sends "null". -/
theorem request_body_spec (t tOther : Transport) (pre : String)
    (method expectedStatus url httpBody urlParamKwargs : Clj) (bodyStr : String)
    (hassert : clientAssert .nil method expectedStatus url httpBody urlParamKwargs = none)
    (hwrite : writeStr httpBody = some bodyStr)
    (hagree : ∀ (u2 : String) (rm : RequestMap), rm.body = bodyStr →
      t.get u2 rm = tOther.get u2 rm ∧ t.post u2 rm = tOther.post u2 rm ∧
      t.put u2 rm = tOther.put u2 rm ∧ t.delete u2 rm = tOther.delete u2 rm) :
    clientImpl t pre .nil method expectedStatus url httpBody urlParamKwargs =
      clientImpl tOther pre .nil method expectedStatus url httpBody urlParamKwargs ∧
    writeStr .nil = some "null" := by
  refine ⟨?_, rfl⟩
  have hm : methodValid method = true := ((clientAssert_none_iff _ _ _ _ _ _).mp hassert).2.1
  have h1 := clientImpl_ok_token t pre .nil method expectedStatus url httpBody
    urlParamKwargs .nil hassert rfl
  have h2 := clientImpl_ok_token tOther pre .nil method expectedStatus url httpBody
    urlParamKwargs .nil hassert rfl
  rw [h1, h2]
  exact clientCore_transport_agree t tOther pre method expectedStatus url httpBody
    urlParamKwargs .nil bodyStr hwrite hm hagree

/-- C10 witness: a GET with no body against two servers that only agree on
requests whose body is "null" cannot tell them apart, because the issued
request body is "null". -/
theorem request_body_spec_witness :
    clientImpl TbodyA urlPrefixDefault .nil (.kw "get") .nil (.str "card") .nil .nil =
      clientImpl TbodyB urlPrefixDefault .nil (.kw "get") .nil (.str "card") .nil .nil := by
  have h := (request_body_spec TbodyA TbodyB urlPrefixDefault (.kw "get") .nil (.str "card")
    .nil .nil "null" rfl rfl ?_).1
  · exact h
  · intro u2 rm hb
    refine ⟨?_, ?_, ?_, ?_⟩ <;> simp [TbodyA, TbodyB, hb]

/-- C9: a transport throw carrying attached data (ExceptionInfo) is caught
and the `:object` entry of that data is used as the response to check and
parse — the call behaves exactly as if the transport had returned that
object — while a throw with no recoverable payload propagates to the
caller as an error. -/
theorem transport_recovery_spec
    (t : Transport) (pre : String)
    (method expectedStatus url httpBody urlParamKwargs : Clj)
    (bodyStr fullUrl : String) (f : String → RequestMap → TransportResult)
    (hassert : clientAssert .nil method expectedStatus url httpBody urlParamKwargs = none)
    (hwrite : writeStr httpBody = some bodyStr)
    (hf : requestFn t method = some f)
    (hurl : build_url pre url urlParamKwargs = .ok fullUrl) :
    (∀ d : Clj, f fullUrl ⟨.kw "json", .kw "json", .nil, bodyStr⟩ = .exInfo d →
      clientImpl t pre .nil method expectedStatus url httpBody urlParamKwargs =
        clientImpl (respondWith (.ok (cljGet d (.kw "object")))) pre .nil method
          expectedStatus url httpBody urlParamKwargs) ∧
    (∀ msg : String, f fullUrl ⟨.kw "json", .kw "json", .nil, bodyStr⟩ = .exOther msg →
      clientImpl t pre .nil method expectedStatus url httpBody urlParamKwargs =
        .error (.transportFailed msg)) := by
  have hm : methodValid method = true := ((clientAssert_none_iff _ _ _ _ _ _).mp hassert).2.1
  have h1 := clientImpl_ok_token t pre .nil method expectedStatus url httpBody
    urlParamKwargs .nil hassert rfl
  constructor
  · intro d hcall
    have hresp : transportOutcome (f fullUrl ⟨.kw "json", .kw "json", .nil, bodyStr⟩) =
        .ok (cljGet d (.kw "object")) := by rw [hcall]; rfl
    have hcore := clientCore_ok_resp t pre method expectedStatus url httpBody urlParamKwargs
      .nil bodyStr fullUrl f (cljGet d (.kw "object")) hwrite hf hurl hresp
    have h2 := clientImpl_ok_token (respondWith (.ok (cljGet d (.kw "object")))) pre .nil
      method expectedStatus url httpBody urlParamKwargs .nil hassert rfl
    have hcore2 := clientCore_ok_resp (respondWith (.ok (cljGet d (.kw "object")))) pre
      method expectedStatus url httpBody urlParamKwargs .nil bodyStr fullUrl
      (fun _ _ => .ok (cljGet d (.kw "object"))) (cljGet d (.kw "object"))
      hwrite (requestFn_respondWith _ method hm) hurl rfl
    rw [h1, hcore, h2, hcore2]
  · intro msg hcall
    rw [h1]
    simp [clientCore, hwrite, hf, hurl, hcall, transportOutcome]

/-- C9 witness: an ExceptionInfo with an embedded 400 response is
recovered and parsed; a bare connection exception propagates. -/
theorem transport_recovery_spec_witness :
    clientImpl TexInfo urlPrefixDefault .nil (.kw "get") .nil (.str "x") .nil .nil =
      clientImpl (respondWith (.ok (mkResp 400 "\x7b\"err\": true\x7d"))) urlPrefixDefault
        .nil (.kw "get") .nil (.str "x") .nil .nil ∧
    clientImpl Tdown urlPrefixDefault .nil (.kw "get") .nil (.str "x") .nil .nil =
      .error (.transportFailed "Connection refused") := by
  constructor
  · have h := (transport_recovery_spec TexInfo urlPrefixDefault (.kw "get") .nil (.str "x")
      .nil .nil "null" "http://localhost:3000/api/x" TexInfo.get rfl rfl rfl rfl).1
      (.map [(.kw "object", mkResp 400 "\x7b\"err\": true\x7d")]) rfl
    exact h
  · have h := (transport_recovery_spec Tdown urlPrefixDefault (.kw "get") .nil (.str "x")
      .nil .nil "null" "http://localhost:3000/api/x" Tdown.get rfl rfl rfl rfl).2
      "Connection refused" rfl
    exact h

/-- For a map of credentials, the variadic resolution of
`(client :post 200 "session" credentials)` yields nil credentials, the
POST verb, expected status 200, the fixed session path, the credentials
map as the HTTP body, and no query parameters. -/
theorem clientArgsParse_session (credentials : Clj) (hmap : isMap credentials = true) :
    clientArgsParse [.kw "post", .int 200, .str "session", credentials] =
      some (.nil, .kw "post", .int 200, .str "session", credentials, .nil) := by
  cases credentials <;> first | rfl | simp [isMap] at hmap

/-- The preconditions of the nested session call pass for any map of
credentials. -/
theorem clientAssert_session (credentials : Clj) (hmap : isMap credentials = true) :
    clientAssert .nil (.kw "post") (.int 200) (.str "session") credentials .nil = none := by
  cases credentials <;> first | rfl | simp [isMap] at hmap

/-- C3: when credentials are supplied and the nested authentication
sub-call fails with any catchable exception (status mismatch, transport
error, and so on), authenticate swallows the failure into an absent (nil)
token and the main call behaves exactly like the same call without
credentials: it is still issued, with an absent session token, and the
authentication failure is never raised to the caller. -/
theorem auth_failure_degrades (t : Transport) (pre : String) (credentials : Clj)
    (err : ClientError) (method expectedStatus url httpBody urlParamKwargs : Clj)
    (hemail : isString (cljGet credentials (.kw "email")) = true)
    (hpass : isString (cljGet credentials (.kw "password")) = true)
    (hfail : clientSessionCall t pre credentials = .error err)
    (hcatch : err.catchable = true) :
    authenticate t pre credentials = .ok .nil ∧
    clientImpl t pre credentials method expectedStatus url httpBody urlParamKwargs =
      clientImpl t pre .nil method expectedStatus url httpBody urlParamKwargs := by
  have hauth : authenticate t pre credentials = .ok .nil := by
    unfold authenticate
    rw [hemail, hpass]
    simp [authCatch, hfail, hcatch]
  refine ⟨hauth, ?_⟩
  have hmap : isMap credentials = true := isMap_of_isString_get _ _ hemail
  have hassert := clientAssert_map_nil credentials method expectedStatus url httpBody
    urlParamKwargs hmap
  have htruthy : cljTruthy credentials = true := by
    cases credentials <;> simp_all [isMap, cljTruthy]
  unfold clientImpl
  rw [hassert]
  cases ha : clientAssert .nil method expectedStatus url httpBody urlParamKwargs
  · dsimp only
    have ht : tokenOf t pre credentials = .ok Clj.nil := by
      simp [tokenOf, htruthy, hauth]
    rw [ht]
    rfl
  · dsimp only

/-- C3 witness: with valid credentials against a server that answers 401
everywhere, authentication fails quietly and the main GET returns the
unauthenticated result. -/
theorem auth_failure_degrades_witness :
    authenticate T401 urlPrefixDefault credsGood = .ok .nil ∧
    clientImpl T401 urlPrefixDefault credsGood (.kw "get") .nil (.str "card") .nil .nil =
      clientImpl T401 urlPrefixDefault .nil (.kw "get") .nil (.str "card") .nil .nil :=
  auth_failure_degrades T401 urlPrefixDefault credsGood
    (.statusMismatch
      "POST http://localhost:3000/api/session expected a status code of 200, got 401")
    (.kw "get") .nil (.str "card") .nil .nil rfl rfl rfl rfl

/-- C6 counterexample: credentials whose email and password are the empty
string — hence not non-empty strings — do not make authenticate fail with
a contract violation: the session request is issued and a token comes
back. -/
theorem authenticate_empty_strings_counterexample :
    authenticate Tsess urlPrefixDefault credsEmpty = .ok (.str "tok123") ∧
    ∀ form, authenticate Tsess urlPrefixDefault credsEmpty ≠ .error (.assertFailed form) := by
  constructor
  · rfl
  · intro form h
    rw [show authenticate Tsess urlPrefixDefault credsEmpty = .ok (.str "tok123") from rfl] at h
    exact Except.noConfusion h

/-- C6 amended: authenticate requires email and password to be strings
(possibly empty): for every credentials value whose email or password is
not a string, it fails with a contract violation independently of the
transport, hence before issuing any request. -/
theorem authenticate_requires_string_credentials (t tOther : Transport) (pre : String)
    (credentials : Clj)
    (h : isString (cljGet credentials (.kw "email")) = false ∨
      isString (cljGet credentials (.kw "password")) = false) :
    (∃ form, authenticate t pre credentials = .error (.assertFailed form)) ∧
    authenticate t pre credentials = authenticate tOther pre credentials := by
  by_cases he : isString (cljGet credentials (.kw "email")) = true
  · have hp : isString (cljGet credentials (.kw "password")) = false := by
      rcases h with h | h
      · rw [he] at h; cases h
      · exact h
    refine ⟨⟨"(string? password)", ?_⟩, ?_⟩ <;> simp [authenticate, he, hp]
  · have he' : isString (cljGet credentials (.kw "email")) = false := by
      cases hh : isString (cljGet credentials (.kw "email"))
      · rfl
      · exact absurd hh he
    refine ⟨⟨"(string? email)", ?_⟩, ?_⟩ <;> simp [authenticate, he']

/-- C6 amended witness: an integer email is rejected by the contract, for
any transport, with the same assertion error. -/
theorem authenticate_requires_string_credentials_witness :
    (∃ form, authenticate Tsess urlPrefixDefault credsBadEmail =
      .error (.assertFailed form)) ∧
    authenticate Tsess urlPrefixDefault credsBadEmail =
      authenticate T401 urlPrefixDefault credsBadEmail :=
  authenticate_requires_string_credentials Tsess T401 urlPrefixDefault credsBadEmail
    (Or.inl rfl)

/-- C7: for valid credentials, authenticate issues one POST through the
call executor to the fixed "session" path with expected status 200,
sending the credentials map as the JSON request body while the request
itself carries no session token (no recursive authentication); the result
is determined by the transport's POST function alone, and on a 200
response the token is the id entry of the parsed JSON body (nil on any
other status). -/
theorem authenticate_session_post (t : Transport) (pre : String) (credentials : Clj)
    (bodyStr : String) (resp : Clj)
    (hemail : isString (cljGet credentials (.kw "email")) = true)
    (hpass : isString (cljGet credentials (.kw "password")) = true)
    (hwrite : writeStr credentials = some bodyStr)
    (hpost : t.post (pre ++ "session") ⟨.kw "json", .kw "json", .nil, bodyStr⟩ = .ok resp) :
    authenticate t pre credentials =
      .ok (if cljBeq (cljGet resp (.kw "status")) (.int 200) = true
        then cljGet (deserializeBody (cljGet resp (.kw "body"))) (.kw "id")
        else .nil) ∧
    (∀ tOther : Transport, tOther.post = t.post →
      authenticate tOther pre credentials = authenticate t pre credentials) := by
  have hmap : isMap credentials = true := isMap_of_isString_get _ _ hemail
  have hparse := clientArgsParse_session credentials hmap
  have hassert := clientAssert_session credentials hmap
  have hA : ∀ tr : Transport, authenticate tr pre credentials =
      authCatch (clientSessionCall tr pre credentials) := by
    intro tr
    unfold authenticate
    rw [hemail, hpass]
    simp
  constructor
  · have hresp : transportOutcome
        (t.post (pre ++ "session") ⟨.kw "json", .kw "json", .nil, bodyStr⟩) = .ok resp := by
      rw [hpost]; rfl
    have hcore := clientCore_ok_resp t pre (.kw "post") (.int 200) (.str "session")
      credentials .nil .nil bodyStr (pre ++ "session") t.post resp hwrite rfl rfl hresp
    have hS : clientSessionCall t pre credentials =
        clientCore t pre (.kw "post") (.int 200) (.str "session") credentials .nil .nil := by
      simp only [clientSessionCall, hparse, hassert]
    rw [hA t, hS, hcore]
    cases hb : cljBeq (cljGet resp (.kw "status")) (.int 200)
    · cases hfa : formatIntArg (cljGet resp (.kw "status")) <;>
        simp [cljTruthy, formatIntArg, authCatch, ClientError.catchable, hfa]
    · simp [cljTruthy, authCatch]
  · intro tOther hp
    rw [hA tOther, hA t]
    have hS2 : clientSessionCall tOther pre credentials = clientSessionCall t pre credentials := by
      simp only [clientSessionCall, hparse, hassert, clientCore, requestFn, hp]
    rw [hS2]

/-- C7 witness: against a mock session endpoint answering 200 with a JSON
id, authenticate returns that id as the token. -/
theorem authenticate_session_post_witness :
    authenticate Tsess urlPrefixDefault credsGood = .ok (.str "tok123") := by
  have h := (authenticate_session_post Tsess urlPrefixDefault credsGood
    "\x7b\"email\":\"a@b.c\",\"password\":\"pw\"\x7d"
    (mkResp 200 "\x7b\"id\": \"tok123\"\x7d") rfl rfl rfl rfl).1
  exact h
